import Mathlib

/-!
Verification of the module workflow and versioning engine of fs-module-manager.

The workflow core (states, roles, version store, workflow engine, access
control policy, audit ledger) is specified in spec.md but its implementation
is not among the shipped source files; those definitions are modelled from
the spec, section by section, and each doc comment says so. The session and
login code that is shipped (the decrypt and verifySession functions and the
login body serializer) is embedded directly from the source files.
-/

namespace ModuleManager

/-- Modelled from the spec: missing workflow-engine code. Workflow states of a
module version (spec section 3). The spec names a terminal Rejected or
Withdrawn state; the transition graph in section 4.1 uses Rejected, which this
model follows. -/
inductive WorkflowState where
  | Draft
  | InReview
  | Validation
  | Approval
  | Released
  | Rejected
deriving DecidableEq

/-- Modelled from the spec: missing workflow-engine code. Actor roles
(spec section 3). -/
inductive Role where
  | ModuleOwner
  | ProgramCoordinator
  | ExaminationOffice
  | Deanery
  | Admin
deriving DecidableEq

/-- Modelled from the spec: missing workflow-engine code. Versioned payload of
a module (spec section 3: title, credits, description; localized-text
attachments and the owning-program reference are carried the same way and are
folded into the description field for this model). -/
structure Payload where
  title : String
  credits : Nat
  description : String
deriving DecidableEq

/-- Modelled from the spec: missing workflow-engine code. An immutable version
snapshot (spec section 3): number, workflow state, payload, and the version it
supersedes (none for the first version). -/
structure ModuleVersion where
  number : Nat
  state : WorkflowState
  payload : Payload
  predecessor : Option Nat
deriving DecidableEq

/-- Modelled from the spec: missing workflow-engine code. Outcome of a
transition attempt recorded in the audit ledger (spec section 3). -/
inductive Outcome where
  | accepted
  | denied
deriving DecidableEq

/-- Modelled from the spec: missing workflow-engine code. Error taxonomy
(spec section 7), plus a persistence failure used to model fault injection on
the commit path (spec sections 5 and 8). -/
inductive WfError where
  | NotFound
  | IllegalTransition
  | Forbidden
  | VersionConflict
  | InvalidState
  | PersistenceFailure
deriving DecidableEq

/-- Modelled from the spec: missing workflow-engine code. An immutable audit
record (spec section 3); versionNumber is the version produced (none for
denials), reason is the denial reason when applicable. -/
structure AuditEntry where
  moduleId : String
  versionNumber : Option Nat
  role : Role
  fromState : WorkflowState
  toState : WorkflowState
  outcome : Outcome
  reason : Option WfError
deriving DecidableEq

/-- Modelled from the spec: missing workflow-engine code. The Module
Repository (spec sections 2 and 4.5): durable storage of every module's
ordered version history plus the append-only audit ledger. -/
structure Store where
  mods : String → List ModuleVersion
  audit : List AuditEntry

/-- Store with no modules and an empty audit ledger. -/
def Store.empty : Store := ⟨fun _ => [], []⟩

/-- Highest version number already assigned for a module (0 when there is
none). -/
def maxNumber (vs : List ModuleVersion) : Nat :=
  vs.foldl (fun a v => Nat.max a v.number) 0

/-- Modelled from the spec: missing workflow-engine code. createVersion of the
Version Store (spec section 4.2): assigns the next sequence number for the
module (max existing + 1, or 1 if none), persists, returns the new number. -/
def createVersion (s : Store) (m : String) (p : Payload) (st : WorkflowState)
    (pred : Option Nat) : Store × Nat :=
  let n := maxNumber (s.mods m) + 1
  (⟨fun k => if k = m then s.mods k ++ [⟨n, st, p, pred⟩] else s.mods k, s.audit⟩, n)

/-- Step of the fold that selects the highest-numbered version seen so far. -/
def pick (acc : Option ModuleVersion) (v : ModuleVersion) : Option ModuleVersion :=
  match acc with
  | none => some v
  | some w => if w.number < v.number then some v else some w

/-- Modelled from the spec: missing workflow-engine code. latest of the
Version Store (spec section 4.2): the highest-numbered version of the module,
or none for an unknown module. -/
def latest (s : Store) (m : String) : Option ModuleVersion :=
  (s.mods m).foldl pick none

/-- Modelled from the spec: missing workflow-engine code. getVersion of the
Version Store (spec section 4.2): the snapshot with the given number, or
NotFound. -/
def getVersion (s : Store) (m : String) (n : Nat) : Except WfError ModuleVersion :=
  match (s.mods m).find? (fun v => v.number == n) with
  | some v => Except.ok v
  | none => Except.error WfError.NotFound

/-- Modelled from the spec: missing workflow-engine code. currentState of the
Workflow Engine (spec section 4.1): the state of the latest version, NotFound
when the module has no versions. -/
def currentState (s : Store) (m : String) : Except WfError WorkflowState :=
  match latest s m with
  | some v => Except.ok v.state
  | none => Except.error WfError.NotFound

/-- Modelled from the spec: missing workflow-engine code. The fixed transition
graph of section 4.1: Draft to InReview, InReview to Validation or Rejected,
Validation to Approval or Rejected, Approval to Released or Rejected, Rejected
back to Draft; Released is terminal. -/
def legalSuccessor : WorkflowState → WorkflowState → Bool
  | .Draft, .InReview => true
  | .InReview, .Validation => true
  | .InReview, .Rejected => true
  | .Validation, .Approval => true
  | .Validation, .Rejected => true
  | .Approval, .Released => true
  | .Approval, .Rejected => true
  | .Rejected, .Draft => true
  | _, _ => false

/-- Modelled from the spec: missing workflow-engine code. An allow or deny
decision of the Access Control Policy (spec section 4.3). -/
inductive Decision where
  | allow
  | deny
deriving DecidableEq

/-- Modelled from the spec: missing workflow-engine code. The Access Control
Policy (spec section 4.3), a pure total lookup over (role, from-state,
to-state): ModuleOwner submits Draft to InReview and Rejected to Draft,
ProgramCoordinator acts InReview to Validation, ExaminationOffice Validation
to Approval, Deanery Approval to Released, Admin may perform any transition;
every other triple is denied. -/
def policy : Role → WorkflowState → WorkflowState → Decision
  | .Admin, _, _ => .allow
  | .ModuleOwner, .Draft, .InReview => .allow
  | .ModuleOwner, .Rejected, .Draft => .allow
  | .ProgramCoordinator, .InReview, .Validation => .allow
  | .ExaminationOffice, .Validation, .Approval => .allow
  | .Deanery, .Approval, .Released => .allow
  | _, _, _ => .deny

/-- Append one entry to the audit ledger, leaving version histories
untouched. -/
def appendAudit (s : Store) (e : AuditEntry) : Store :=
  ⟨s.mods, s.audit ++ [e]⟩

/-- Modelled from the spec: missing workflow-engine code. The repository's
atomic multi-write (spec section 4.5): the new version and its audit entry are
committed as one unit. -/
def atomicWrite (s : Store) (m : String) (v : ModuleVersion) (e : AuditEntry) : Store :=
  ⟨fun k => if k = m then s.mods k ++ [v] else s.mods k, s.audit ++ [e]⟩

/-- Modelled from the spec: missing workflow-engine code. requestTransition of
the Workflow Engine (spec section 4.1), with a fault flag modelling fault
injection on the commit path (spec sections 5 and 8): when the fault fires the
atomic commit of the new version and its accepted audit entry does not happen
and nothing is persisted. The graph-edge check runs first, then the Access
Control Policy; denials append one denied audit entry carrying the reason;
acceptance commits the new version (carrying forward the prior payload with
the new state) together with its accepted audit entry as one atomic unit. -/
def requestTransitionF (fault : Bool) (s : Store) (m : String) (role : Role)
    (target : WorkflowState) : Store × Except WfError Nat :=
  match latest s m with
  | none => (s, Except.error WfError.NotFound)
  | some prev =>
    if legalSuccessor prev.state target then
      match policy role prev.state target with
      | .allow =>
        if fault then
          (s, Except.error WfError.PersistenceFailure)
        else
          let n := maxNumber (s.mods m) + 1
          (atomicWrite s m ⟨n, target, prev.payload, some prev.number⟩
            ⟨m, some n, role, prev.state, target, Outcome.accepted, none⟩,
           Except.ok n)
      | .deny =>
        (appendAudit s ⟨m, none, role, prev.state, target, Outcome.denied,
           some WfError.Forbidden⟩,
         Except.error WfError.Forbidden)
    else
      (appendAudit s ⟨m, none, role, prev.state, target, Outcome.denied,
         some WfError.IllegalTransition⟩,
       Except.error WfError.IllegalTransition)

/-- Modelled from the spec: missing workflow-engine code. requestTransition
without injected faults. -/
def requestTransition (s : Store) (m : String) (role : Role)
    (target : WorkflowState) : Store × Except WfError Nat :=
  requestTransitionF false s m role target

/-- Modelled from the spec: missing workflow-engine code. proposeEdit of the
Workflow Engine (spec section 4.1): legal in Draft or Rejected (new version in
the same state with the updated payload) and from Released for Admin only (the
deliberate superseding revision, always landing in Draft); InvalidState in
every other case, recorded with a denied audit entry (spec section 7). -/
def proposeEdit (s : Store) (m : String) (role : Role) (p : Payload) :
    Store × Except WfError Nat :=
  match latest s m with
  | none => (s, Except.error WfError.NotFound)
  | some prev =>
    if prev.state = WorkflowState.Draft ∨ prev.state = WorkflowState.Rejected then
      let n := maxNumber (s.mods m) + 1
      (atomicWrite s m ⟨n, prev.state, p, some prev.number⟩
        ⟨m, some n, role, prev.state, prev.state, Outcome.accepted, none⟩,
       Except.ok n)
    else if prev.state = WorkflowState.Released ∧ role = Role.Admin then
      let n := maxNumber (s.mods m) + 1
      (atomicWrite s m ⟨n, WorkflowState.Draft, p, some prev.number⟩
        ⟨m, some n, role, prev.state, WorkflowState.Draft, Outcome.accepted, none⟩,
       Except.ok n)
    else
      (appendAudit s ⟨m, none, role, prev.state, prev.state, Outcome.denied,
         some WfError.InvalidState⟩,
       Except.error WfError.InvalidState)

/-- Operation alphabet of the engine, used to quantify over every sequence of
operations, including transitions whose commit is interrupted by an injected
fault. -/
inductive Op where
  | create (m : String) (p : Payload) (st : WorkflowState) (pred : Option Nat)
  | edit (m : String) (role : Role) (p : Payload)
  | transition (fault : Bool) (m : String) (role : Role) (target : WorkflowState)

/-- Effect of one operation on the store. -/
def applyOp (s : Store) : Op → Store
  | .create m p st pred => (createVersion s m p st pred).1
  | .edit m role p => (proposeEdit s m role p).1
  | .transition fault m role target => (requestTransitionF fault s m role target).1

/-- Store reached from the empty store by a sequence of operations. -/
def run (ops : List Op) : Store :=
  ops.foldl applyOp Store.empty

/-- Version numbers of a module form the gap-free sequence 1, 2, ... in
creation order. -/
def goodNumbers (vs : List ModuleVersion) : Prop :=
  vs.map ModuleVersion.number = List.range' 1 vs.length

/-- Sample payload used by the concrete witnesses. -/
def samplePayload : Payload := ⟨"Algebra", 5, "Linear algebra basics"⟩

/-- Sample payload used by the concrete edit witness. -/
def samplePayload2 : Payload := ⟨"Algebra", 6, "Linear algebra, extended"⟩

/-- Sample store used by the concrete witnesses: one module with a single
version in Draft. -/
def sampleStore : Store :=
  run [Op.create "M" samplePayload WorkflowState.Draft none]

/-- Sample store used by the concrete edit witness: one module with a single
version in Released state. -/
def sampleReleased : Store :=
  run [Op.create "M" samplePayload WorkflowState.Released none]

end ModuleManager

namespace SessionCode

/-- Payload carried by a verified JWT as the session code reads it: the fields
id, name and scope of the Token interface in the session source file. The id
field is an Option so that a payload in which the field is absent (undefined)
can be told apart from a present value; some with the empty string models a
present but falsy id. -/
structure TokenPayload where
  id : Option String
  name : String
  scope : String
deriving DecidableEq

/-- Result of one jwtVerify call as observed by decrypt in the session source
file: either a payload on success, or a thrown error (absent, malformed,
expired or wrongly-signed tokens all land here). -/
inductive JwtResult where
  | ok (payload : TokenPayload)
  | thrown (err : String)
deriving DecidableEq

/-- Value produced by decrypt: either the verified payload, or the caught
error object that the catch branch returns in place of a Token. -/
inductive DecryptResult where
  | payload (p : TokenPayload)
  | errorObject (err : String)
deriving DecidableEq

/-- Embedded from the session source file (decrypt): the function wraps a
single jwtVerify call in try/catch and returns the caught error object in
place of a Token instead of re-throwing; an absent argument (undefined) is
replaced by the default value, the empty string. jwtVerify itself is a
parameter of the embedding. -/
def decrypt (jwtVerify : String → JwtResult) (session : Option String) : DecryptResult :=
  match jwtVerify (session.getD "") with
  | .ok p => DecryptResult.payload p
  | .thrown e => DecryptResult.errorObject e

/-- Observable result of verifySession: a redirect to /login, or the
authenticated identity taken from the payload. -/
inductive SessionResult where
  | redirectLogin
  | auth (id name scope : String)
deriving DecidableEq

/-- Embedded from the session source file (verifySession): reads the session
cookie, decrypts it, redirects to /login unless the decrypted value has a
truthy id field, and otherwise returns the identity fields of the payload.
A caught error object has no id field, so it always redirects. -/
def verifySession (jwtVerify : String → JwtResult) (cookie : Option String) :
    SessionResult :=
  match decrypt jwtVerify cookie with
  | .payload p =>
    match p.id with
    | some i =>
      if i = "" then SessionResult.redirectLogin
      else SessionResult.auth i p.name p.scope
    | none => SessionResult.redirectLogin
  | .errorObject _ => SessionResult.redirectLogin

/-- Sample verifier used by the concrete witness: accepts exactly one token
string and rejects everything else the way jwtVerify does, by throwing. -/
def sampleVerify : String → JwtResult := fun s =>
  if s = "valid.jwt" then JwtResult.ok ⟨some "u1", "Ada", "module-manager"⟩
  else JwtResult.thrown "JWSSignatureVerificationFailed"

end SessionCode

namespace LoginPage

/-- Value of one field of the token-request body literal in the login page
source: a string, null, or undefined. -/
inductive FormValue where
  | str (s : String)
  | null
  | undef
deriving DecidableEq

/-- Embedded from the login page source (onSubmit): the token-request body
literal, in insertion order as traversed by Object.entries. -/
def tokenRequestBody (userId password : String) : List (String × FormValue) :=
  [("grant_type", FormValue.str "password"),
   ("username", FormValue.str userId),
   ("password", FormValue.str password),
   ("scope", FormValue.str ""),
   ("client_id", FormValue.null),
   ("client_secret", FormValue.null)]

/-- Embedded from the login page source (bodySerializer): the serializer
appends to a URLSearchParams exactly those entries whose value is neither null
nor undefined, in order. The result is modelled as the ordered list of
appended key-value pairs; the percent-encoding and ampersand join performed by
URLSearchParams.toString are elided because the claims concern which fields
are present. -/
def bodySerializer (body : List (String × FormValue)) : List (String × String) :=
  body.filterMap (fun kv =>
    match kv.2 with
    | FormValue.str s => some (kv.1, s)
    | FormValue.null => none
    | FormValue.undef => none)

end LoginPage

namespace ModuleManager

/-- Folding Nat.max over the range 1..n yields the maximum of the start value
and n. -/
theorem foldl_max_range (n : Nat) :
    ∀ a : Nat, List.foldl Nat.max a (List.range' 1 n) = Nat.max a n := by
  induction n with
  | zero => intro a; simp
  | succ k ih =>
    intro a
    rw [List.range'_concat, List.foldl_append, ih]
    simp only [List.foldl_cons, List.foldl_nil]
    simp only [Nat.max_def]
    split_ifs <;> omega

/-- On a gap-free history 1..n the next assigned number is the length plus
one: maxNumber computes the length. -/
theorem maxNumber_of_good {vs : List ModuleVersion} (h : goodNumbers vs) :
    maxNumber vs = vs.length := by
  unfold maxNumber
  have h2 : List.foldl (fun a v => Nat.max a v.number) 0 vs
      = List.foldl Nat.max 0 (vs.map ModuleVersion.number) := by
    rw [List.foldl_map]
  rw [h2, h, foldl_max_range]
  exact Nat.zero_max _

/-- Appending a version numbered maxNumber + 1 keeps the history gap-free. -/
theorem goodNumbers_append {vs : List ModuleVersion} {v : ModuleVersion}
    (h : goodNumbers vs) (hv : v.number = maxNumber vs + 1) :
    goodNumbers (vs ++ [v]) := by
  have hm := maxNumber_of_good h
  unfold goodNumbers at h ⊢
  rw [List.map_append, h]
  simp only [List.map_cons, List.map_nil, List.length_append, List.length_cons,
    List.length_nil]
  rw [List.range'_concat]
  rw [hv, hm]
  simp
  omega

/-- Every operation either leaves a module's history unchanged or appends one
version numbered maxNumber + 1. -/
theorem applyOp_mods (s : Store) (op : Op) (k : String) :
    (applyOp s op).mods k = s.mods k
    ∨ ∃ v : ModuleVersion, v.number = maxNumber (s.mods k) + 1
        ∧ (applyOp s op).mods k = s.mods k ++ [v] := by
  cases op with
  | create m p st pred =>
    by_cases hk : k = m
    · subst hk
      right
      exact ⟨⟨maxNumber (s.mods k) + 1, st, p, pred⟩, rfl,
        by simp [applyOp, createVersion]⟩
    · left
      simp [applyOp, createVersion, hk]
  | edit m role p =>
    cases hl : latest s m with
    | none => left; simp [applyOp, proposeEdit, hl]
    | some prev =>
      by_cases h1 : prev.state = WorkflowState.Draft ∨ prev.state = WorkflowState.Rejected
      · by_cases hk : k = m
        · subst hk
          right
          refine ⟨⟨maxNumber (s.mods k) + 1, prev.state, p, some prev.number⟩, rfl, ?_⟩
          simp [applyOp, proposeEdit, hl, h1, atomicWrite]
        · left
          simp [applyOp, proposeEdit, hl, h1, atomicWrite, hk]
      · by_cases h2 : prev.state = WorkflowState.Released ∧ role = Role.Admin
        · by_cases hk : k = m
          · subst hk
            right
            refine ⟨⟨maxNumber (s.mods k) + 1, WorkflowState.Draft, p,
              some prev.number⟩, rfl, ?_⟩
            simp [applyOp, proposeEdit, hl, h1, h2, atomicWrite]
          · left
            simp [applyOp, proposeEdit, hl, h1, h2, atomicWrite, hk]
        · left
          simp [applyOp, proposeEdit, hl, h1, h2, appendAudit]
  | transition fault m role target =>
    cases hl : latest s m with
    | none => left; simp [applyOp, requestTransitionF, hl]
    | some prev =>
      cases he : legalSuccessor prev.state target with
      | false => left; simp [applyOp, requestTransitionF, hl, he, appendAudit]
      | true =>
        cases hp : policy role prev.state target with
        | deny => left; simp [applyOp, requestTransitionF, hl, he, hp, appendAudit]
        | allow =>
          cases fault with
          | true => left; simp [applyOp, requestTransitionF, hl, he, hp]
          | false =>
            by_cases hk : k = m
            · subst hk
              right
              refine ⟨⟨maxNumber (s.mods k) + 1, target, prev.payload,
                some prev.number⟩, rfl, ?_⟩
              simp [applyOp, requestTransitionF, hl, he, hp, atomicWrite]
            · left
              simp [applyOp, requestTransitionF, hl, he, hp, atomicWrite, hk]

/-- The gap-free invariant is preserved along any fold of operations. -/
theorem foldl_applyOp_good (ops : List Op) :
    ∀ s : Store, (∀ k, goodNumbers (s.mods k)) →
      ∀ k, goodNumbers ((ops.foldl applyOp s).mods k) := by
  induction ops with
  | nil => intro s hs k; simpa using hs k
  | cons op rest ih =>
    intro s hs k
    refine ih (applyOp s op) ?_ k
    intro k'
    rcases applyOp_mods s op k' with h | ⟨v, hv, h⟩
    · rw [h]; exact hs k'
    · rw [h]; exact goodNumbers_append (hs k') hv

/-- Every reachable store satisfies the gap-free numbering invariant. -/
theorem run_good (ops : List Op) (k : String) : goodNumbers ((run ops).mods k) := by
  apply foldl_applyOp_good
  intro k'
  simp [Store.empty, goodNumbers]

/-- Folding pick from a some accumulator yields a member (or the accumulator)
whose number bounds the accumulator and every list element. -/
theorem foldl_pick_some (vs : List ModuleVersion) :
    ∀ w : ModuleVersion, ∃ r, vs.foldl pick (some w) = some r
      ∧ (r ∈ vs ∨ r = w) ∧ w.number ≤ r.number
      ∧ ∀ u ∈ vs, u.number ≤ r.number := by
  induction vs with
  | nil =>
    intro w
    exact ⟨w, rfl, Or.inr rfl, Nat.le_refl _, by simp⟩
  | cons v rest ih =>
    intro w
    by_cases h : w.number < v.number
    · obtain ⟨r, hr, hmem, hle, hall⟩ := ih v
      refine ⟨r, ?_, ?_, ?_, ?_⟩
      · rw [List.foldl_cons]
        rw [show pick (some w) v = some v by simp [pick, h]]
        exact hr
      · rcases hmem with hm | hm
        · exact Or.inl (List.mem_cons_of_mem v hm)
        · exact Or.inl (hm ▸ List.mem_cons_self v rest)
      · exact Nat.le_trans (Nat.le_of_lt h) hle
      · intro u hu
        rcases List.mem_cons.mp hu with hu | hu
        · exact hu ▸ hle
        · exact hall u hu
    · obtain ⟨r, hr, hmem, hle, hall⟩ := ih w
      refine ⟨r, ?_, ?_, hle, ?_⟩
      · rw [List.foldl_cons]
        rw [show pick (some w) v = some w by simp [pick, h]]
        exact hr
      · rcases hmem with hm | hm
        · exact Or.inl (List.mem_cons_of_mem v hm)
        · exact Or.inr hm
      · intro u hu
        rcases List.mem_cons.mp hu with hu | hu
        · subst hu
          exact Nat.le_trans (Nat.le_of_not_lt h) hle
        · exact hall u hu

/-- A nonempty history has a latest version. -/
theorem latest_isSome (s : Store) (m : String) (h : s.mods m ≠ []) :
    ∃ l, latest s m = some l := by
  unfold latest
  cases hvs : s.mods m with
  | nil => exact absurd hvs h
  | cons v rest =>
    rw [List.foldl_cons]
    rw [show pick none v = some v from rfl]
    obtain ⟨r, hr, _⟩ := foldl_pick_some rest v
    exact ⟨r, hr⟩

/-- The latest version is a member of the history and carries its greatest
version number. -/
theorem latest_spec (s : Store) (m : String) (l : ModuleVersion)
    (h : latest s m = some l) :
    l ∈ s.mods m ∧ ∀ u ∈ s.mods m, u.number ≤ l.number := by
  unfold latest at h
  cases hvs : s.mods m with
  | nil =>
    rw [hvs] at h
    simp at h
  | cons v rest =>
    rw [hvs, List.foldl_cons, show pick none v = some v from rfl] at h
    obtain ⟨r, hr, hmem, hle, hall⟩ := foldl_pick_some rest v
    rw [hr] at h
    obtain rfl : r = l := Option.some.inj h
    constructor
    · rcases hmem with hm | hm
      · exact List.mem_cons_of_mem v hm
      · exact hm ▸ List.mem_cons_self v rest
    · intro u hu
      rcases List.mem_cons.mp hu with hu | hu
      · exact hu ▸ hle
      · exact hall u hu

/-- Gap-free numbering makes version numbers distinct within a history. -/
theorem good_nodup {vs : List ModuleVersion} (h : goodNumbers vs) :
    (vs.map ModuleVersion.number).Nodup := by
  rw [h]
  exact List.nodup_range' _ _

/-- C1: for every module, after every sequence of operations, the version
numbers assigned (all through the maxNumber + 1 rule of createVersion) form
the strictly increasing, gap-free sequence 1, 2, ..., n in creation order:
the first version has number 1 and each subsequent version has number equal
to the previous maximum plus one. -/
theorem version_numbers_gapless (ops : List Op) (m : String) :
    ((run ops).mods m).map ModuleVersion.number
      = List.range' 1 ((run ops).mods m).length :=
  run_good ops m

/-- C2: after every sequence of operations, a module with no versions makes
currentState fail with NotFound, and for a module with versions currentState
returns exactly the state stored in the highest-numbered version. -/
theorem currentState_highest (ops : List Op) (m : String) :
    ((run ops).mods m = [] →
      currentState (run ops) m = Except.error WfError.NotFound)
    ∧ ∀ v ∈ (run ops).mods m,
        (∀ w ∈ (run ops).mods m, w.number ≤ v.number) →
        currentState (run ops) m = Except.ok v.state := by
  constructor
  · intro h
    have hn : latest (run ops) m = none := by
      unfold latest
      rw [h]
      rfl
    unfold currentState
    rw [hn]
  · intro v hv hmax
    have hne : (run ops).mods m ≠ [] := List.ne_nil_of_mem hv
    obtain ⟨l, hl⟩ := latest_isSome _ _ hne
    obtain ⟨hlmem, hlall⟩ := latest_spec _ _ _ hl
    have h1 : l.number ≤ v.number := hmax l hlmem
    have h2 : v.number ≤ l.number := hlall v hv
    have hnum : v.number = l.number := Nat.le_antisymm h2 h1
    have hnd := good_nodup (run_good ops m)
    have hvl : v = l := List.inj_on_of_nodup_map hnd hv hlmem hnum
    subst hvl
    unfold currentState
    rw [hl]

/-- Witness for C2 at a concrete input: one created version in Draft, whose
membership and maximality discharge the hypotheses. -/
theorem currentState_highest_w :
    ((⟨1, WorkflowState.Draft, samplePayload, none⟩ : ModuleVersion)
        ∈ (run [Op.create "M" samplePayload WorkflowState.Draft none]).mods "M")
    ∧ currentState (run [Op.create "M" samplePayload WorkflowState.Draft none]) "M"
        = Except.ok WorkflowState.Draft :=
  ⟨by decide,
   (currentState_highest [Op.create "M" samplePayload WorkflowState.Draft none] "M").2
     ⟨1, WorkflowState.Draft, samplePayload, none⟩ (by decide) (by decide)⟩

/-- C3: an accepted requestTransition appends exactly one new version to the
module and exactly one accepted audit entry naming that version's number, as
one atomic unit; any other module is untouched; and on the same input the
fault-injected commit leaves the store completely unchanged, surfacing a
persistence failure, so neither the version nor the entry is ever visible
without the other. -/
theorem requestTransition_atomic (s : Store) (m : String) (role : Role)
    (target : WorkflowState) (n : Nat)
    (h : (requestTransitionF false s m role target).2 = Except.ok n) :
    ∃ prev, latest s m = some prev
      ∧ n = maxNumber (s.mods m) + 1
      ∧ (requestTransitionF false s m role target).1.mods m
          = s.mods m ++ [⟨n, target, prev.payload, some prev.number⟩]
      ∧ (requestTransitionF false s m role target).1.audit
          = s.audit ++ [⟨m, some n, role, prev.state, target, Outcome.accepted, none⟩]
      ∧ (∀ k, k ≠ m → (requestTransitionF false s m role target).1.mods k = s.mods k)
      ∧ requestTransitionF true s m role target
          = (s, Except.error WfError.PersistenceFailure) := by
  cases hl : latest s m with
  | none => simp [requestTransitionF, hl] at h
  | some prev =>
    cases he : legalSuccessor prev.state target with
    | false => simp [requestTransitionF, hl, he] at h
    | true =>
      cases hp : policy role prev.state target with
      | deny => simp [requestTransitionF, hl, he, hp] at h
      | allow =>
        have hn : n = maxNumber (s.mods m) + 1 := by
          simp [requestTransitionF, hl, he, hp] at h
          omega
        refine ⟨prev, rfl, hn, ?_, ?_, ?_, ?_⟩
        · simp [requestTransitionF, hl, he, hp, atomicWrite, hn]
        · simp [requestTransitionF, hl, he, hp, atomicWrite, hn]
        · intro k hk
          simp [requestTransitionF, hl, he, hp, atomicWrite, hk]
        · simp [requestTransitionF, hl, he, hp]

/-- Witness for C3 at a concrete input: a Draft module, ModuleOwner moving it
to InReview, which is accepted with version number 2. -/
theorem requestTransition_atomic_w :
    (requestTransitionF false sampleStore "M" Role.ModuleOwner
        WorkflowState.InReview).2 = Except.ok 2
    ∧ ∃ prev, latest sampleStore "M" = some prev
      ∧ 2 = maxNumber (sampleStore.mods "M") + 1
      ∧ (requestTransitionF false sampleStore "M" Role.ModuleOwner
            WorkflowState.InReview).1.mods "M"
          = sampleStore.mods "M"
            ++ [⟨2, WorkflowState.InReview, prev.payload, some prev.number⟩]
      ∧ (requestTransitionF false sampleStore "M" Role.ModuleOwner
            WorkflowState.InReview).1.audit
          = sampleStore.audit
            ++ [⟨"M", some 2, Role.ModuleOwner, prev.state, WorkflowState.InReview,
                 Outcome.accepted, none⟩]
      ∧ (∀ k, k ≠ "M" →
          (requestTransitionF false sampleStore "M" Role.ModuleOwner
              WorkflowState.InReview).1.mods k = sampleStore.mods k)
      ∧ requestTransitionF true sampleStore "M" Role.ModuleOwner
            WorkflowState.InReview
          = (sampleStore, Except.error WfError.PersistenceFailure) :=
  ⟨rfl,
   requestTransition_atomic sampleStore "M" Role.ModuleOwner
     WorkflowState.InReview 2 rfl⟩

/-- C4: a transition request whose target is not a direct successor of the
module's current state in the fixed graph fails with IllegalTransition, for
every role, and leaves every module's version history unchanged. -/
theorem requestTransition_illegal (s : Store) (m : String) (role : Role)
    (target : WorkflowState) (cur : WorkflowState)
    (hc : currentState s m = Except.ok cur)
    (he : legalSuccessor cur target = false) :
    (requestTransitionF false s m role target).2
        = Except.error WfError.IllegalTransition
    ∧ ∀ k, (requestTransitionF false s m role target).1.mods k = s.mods k := by
  cases hl : latest s m with
  | none => simp [currentState, hl] at hc
  | some prev =>
    have hs : prev.state = cur := by
      simpa [currentState, hl] using hc
    rw [← hs] at he
    constructor
    · simp [requestTransitionF, hl, he]
    · intro k
      simp [requestTransitionF, hl, he, appendAudit]

/-- Witness for C4 at a concrete input: a Draft module asked to jump straight
to Approval, which is not an edge of the graph. -/
theorem requestTransition_illegal_w :
    currentState sampleStore "M" = Except.ok WorkflowState.Draft
    ∧ legalSuccessor WorkflowState.Draft WorkflowState.Approval = false
    ∧ (requestTransitionF false sampleStore "M" Role.ModuleOwner
        WorkflowState.Approval).2 = Except.error WfError.IllegalTransition :=
  ⟨rfl, rfl,
   (requestTransition_illegal sampleStore "M" Role.ModuleOwner
     WorkflowState.Approval WorkflowState.Draft rfl rfl).1⟩

/-- C5: a transition request along a legal edge that the Access Control Policy
denies for the actor's role fails with Forbidden, leaves every version history
unchanged, and appends exactly one denied audit entry carrying the denial
reason. -/
theorem requestTransition_forbidden (s : Store) (m : String) (role : Role)
    (target : WorkflowState) (cur : WorkflowState)
    (hc : currentState s m = Except.ok cur)
    (he : legalSuccessor cur target = true)
    (hp : policy role cur target = Decision.deny) :
    (requestTransitionF false s m role target).2 = Except.error WfError.Forbidden
    ∧ (∀ k, (requestTransitionF false s m role target).1.mods k = s.mods k)
    ∧ (requestTransitionF false s m role target).1.audit
        = s.audit ++ [⟨m, none, role, cur, target, Outcome.denied,
            some WfError.Forbidden⟩] := by
  cases hl : latest s m with
  | none => simp [currentState, hl] at hc
  | some prev =>
    have hs : prev.state = cur := by
      simpa [currentState, hl] using hc
    subst hs
    refine ⟨?_, ?_, ?_⟩
    · simp [requestTransitionF, hl, he, hp]
    · intro k
      simp [requestTransitionF, hl, he, hp, appendAudit]
    · simp [requestTransitionF, hl, he, hp, appendAudit]

/-- Witness for C5 at a concrete input: Deanery asking for Draft to InReview,
a legal edge the policy denies for that role. -/
theorem requestTransition_forbidden_w :
    currentState sampleStore "M" = Except.ok WorkflowState.Draft
    ∧ legalSuccessor WorkflowState.Draft WorkflowState.InReview = true
    ∧ policy Role.Deanery WorkflowState.Draft WorkflowState.InReview = Decision.deny
    ∧ (requestTransitionF false sampleStore "M" Role.Deanery
        WorkflowState.InReview).2 = Except.error WfError.Forbidden :=
  ⟨rfl, rfl, rfl,
   (requestTransition_forbidden sampleStore "M" Role.Deanery
     WorkflowState.InReview WorkflowState.Draft rfl rfl rfl).1⟩

/-- C6: requestTransition can only fail with Forbidden when the target is a
legal successor of the module's current state, because the graph-edge check is
performed before the Access Control Policy check; on a missing edge the result
is IllegalTransition for every role. -/
theorem forbidden_implies_edge (s : Store) (m : String) (role : Role)
    (target : WorkflowState)
    (h : (requestTransitionF false s m role target).2
        = Except.error WfError.Forbidden) :
    ∃ cur, currentState s m = Except.ok cur ∧ legalSuccessor cur target = true := by
  cases hl : latest s m with
  | none => simp [requestTransitionF, hl] at h
  | some prev =>
    cases he : legalSuccessor prev.state target with
    | false => simp [requestTransitionF, hl, he] at h
    | true =>
      exact ⟨prev.state, by simp [currentState, hl], he⟩

/-- Witness for C6 at a concrete input: the denial of C5's scenario really
does surface Forbidden, and the theorem recovers the legal edge from it. -/
theorem forbidden_implies_edge_w :
    ∃ cur, currentState sampleStore "M" = Except.ok cur
      ∧ legalSuccessor cur WorkflowState.InReview = true :=
  forbidden_implies_edge sampleStore "M" Role.Deanery WorkflowState.InReview rfl

/-- C7: proposeEdit succeeds when the current state is Draft or Rejected,
creating one new version in the same state with the updated payload; it
succeeds from Released exactly for the Admin role, creating one new version in
Draft and leaving every previously retrievable version of the module
unchanged under getVersion; in every other case it fails with InvalidState and
changes no version history. -/
theorem proposeEdit_cases (s : Store) (m : String) (role : Role) (p : Payload)
    (prev : ModuleVersion) (hl : latest s m = some prev) :
    ((prev.state = WorkflowState.Draft ∨ prev.state = WorkflowState.Rejected) →
      (proposeEdit s m role p).2 = Except.ok (maxNumber (s.mods m) + 1)
      ∧ (proposeEdit s m role p).1.mods m
          = s.mods m ++ [⟨maxNumber (s.mods m) + 1, prev.state, p,
              some prev.number⟩])
    ∧ (prev.state = WorkflowState.Released → role = Role.Admin →
      (proposeEdit s m role p).2 = Except.ok (maxNumber (s.mods m) + 1)
      ∧ (proposeEdit s m role p).1.mods m
          = s.mods m ++ [⟨maxNumber (s.mods m) + 1, WorkflowState.Draft, p,
              some prev.number⟩]
      ∧ ∀ j v, getVersion s m j = Except.ok v →
          getVersion (proposeEdit s m role p).1 m j = Except.ok v)
    ∧ ((prev.state ≠ WorkflowState.Draft ∧ prev.state ≠ WorkflowState.Rejected
        ∧ ¬(prev.state = WorkflowState.Released ∧ role = Role.Admin)) →
      (proposeEdit s m role p).2 = Except.error WfError.InvalidState
      ∧ ∀ k, (proposeEdit s m role p).1.mods k = s.mods k) := by
  refine ⟨?_, ?_, ?_⟩
  · intro h1
    constructor
    · simp [proposeEdit, hl, h1]
    · simp [proposeEdit, hl, h1, atomicWrite]
  · intro h1 h2
    have hno : ¬(prev.state = WorkflowState.Draft
        ∨ prev.state = WorkflowState.Rejected) := by
      rw [h1]
      simp
    have hmods : (proposeEdit s m role p).1.mods m
        = s.mods m ++ [⟨maxNumber (s.mods m) + 1, WorkflowState.Draft, p,
            some prev.number⟩] := by
      simp [proposeEdit, hl, hno, h1, h2, atomicWrite]
    refine ⟨?_, hmods, ?_⟩
    · simp [proposeEdit, hl, hno, h1, h2]
    · intro j v hjv
      have hfind : (s.mods m).find? (fun w => w.number == j) = some v := by
        unfold getVersion at hjv
        cases hf : (s.mods m).find? (fun w => w.number == j) with
        | none => rw [hf] at hjv; simp at hjv
        | some v0 =>
          rw [hf] at hjv
          simp only [Except.ok.injEq] at hjv
          rw [hjv]
      unfold getVersion
      rw [hmods, List.find?_append, hfind, Option.or_some]
  · intro hno3
    obtain ⟨hn1, hn2, hn3⟩ := hno3
    have hno : ¬(prev.state = WorkflowState.Draft
        ∨ prev.state = WorkflowState.Rejected) := by
      intro hc
      rcases hc with hc | hc
      · exact hn1 hc
      · exact hn2 hc
    constructor
    · simp [proposeEdit, hl, hno, hn3]
    · intro k
      simp [proposeEdit, hl, hno, hn3, appendAudit]

/-- Witness for C7 at concrete inputs: an edit of a Draft module succeeds in
place, and an Admin edit of a Released module succeeds landing in Draft. -/
theorem proposeEdit_cases_w :
    latest sampleStore "M" = some ⟨1, WorkflowState.Draft, samplePayload, none⟩
    ∧ (proposeEdit sampleStore "M" Role.ModuleOwner samplePayload2).2
        = Except.ok 2
    ∧ latest sampleReleased "M"
        = some ⟨1, WorkflowState.Released, samplePayload, none⟩
    ∧ (proposeEdit sampleReleased "M" Role.Admin samplePayload2).2
        = Except.ok 2 :=
  ⟨rfl,
   ((proposeEdit_cases sampleStore "M" Role.ModuleOwner samplePayload2
       ⟨1, WorkflowState.Draft, samplePayload, none⟩ rfl).1 (Or.inl rfl)).1,
   rfl,
   (((proposeEdit_cases sampleReleased "M" Role.Admin samplePayload2
       ⟨1, WorkflowState.Released, samplePayload, none⟩ rfl).2.1 rfl rfl)).1⟩

/-- C8: the Access Control Policy of this model is a pure Lean function, hence
deterministic and side-effect free, and it is total: every (role, from-state,
to-state) triple is mapped to a defined allow or deny decision; no triple can
raise an exception or fall outside the table. -/
theorem policy_total_defined :
    ∀ (r : Role) (a b : WorkflowState),
      policy r a b = Decision.allow ∨ policy r a b = Decision.deny := by
  intro r a b
  cases h : policy r a b
  · exact Or.inl rfl
  · exact Or.inr rfl

end ModuleManager

namespace SessionCode

/-- C9: decrypt is total and catches every jwtVerify failure, returning the
caught error object in place of a Token; consequently verifySession redirects
to /login whenever verification of the (possibly absent, hence defaulted to
empty) session cookie throws, and it returns an authenticated identity only
when verification yields a payload whose id field is present and truthy. -/
theorem decrypt_never_throws_guards_login (jv : String → JwtResult)
    (cookie : Option String) :
    (∀ e, jv (cookie.getD "") = JwtResult.thrown e →
      decrypt jv cookie = DecryptResult.errorObject e
      ∧ verifySession jv cookie = SessionResult.redirectLogin)
    ∧ ∀ i nm sc, verifySession jv cookie = SessionResult.auth i nm sc →
      ∃ p, jv (cookie.getD "") = JwtResult.ok p ∧ p.id = some i ∧ i ≠ ""
        ∧ p.name = nm ∧ p.scope = sc := by
  constructor
  · intro e he
    constructor
    · simp [decrypt, he]
    · simp [verifySession, decrypt, he]
  · intro i nm sc h
    cases hv : jv (cookie.getD "") with
    | thrown e => simp [verifySession, decrypt, hv] at h
    | ok p =>
      cases hid : p.id with
      | none => simp [verifySession, decrypt, hv, hid] at h
      | some i0 =>
        by_cases hi0 : i0 = ""
        · simp [verifySession, decrypt, hv, hid, hi0] at h
        · simp [verifySession, decrypt, hv, hid, hi0] at h
          obtain ⟨h1, h2, h3⟩ := h
          exact ⟨p, rfl, by rw [hid, h1], h1 ▸ hi0, h2, h3⟩

/-- Witness for C9 at concrete inputs: a cookie whose token fails verification
is redirected to /login, with the caught error standing in for the Token. -/
theorem decrypt_never_throws_guards_login_w :
    sampleVerify ((some "evil.jwt").getD "")
        = JwtResult.thrown "JWSSignatureVerificationFailed"
    ∧ decrypt sampleVerify (some "evil.jwt")
        = DecryptResult.errorObject "JWSSignatureVerificationFailed"
    ∧ verifySession sampleVerify (some "evil.jwt") = SessionResult.redirectLogin :=
  ⟨rfl,
   ((decrypt_never_throws_guards_login sampleVerify (some "evil.jwt")).1
     "JWSSignatureVerificationFailed" rfl).1,
   ((decrypt_never_throws_guards_login sampleVerify (some "evil.jwt")).1
     "JWSSignatureVerificationFailed" rfl).2⟩

end SessionCode

namespace LoginPage

/-- C10: for every login submission, the serialized token-request body
contains exactly the fields whose values are neither null nor undefined, in
insertion order: grant_type, username, password and scope are always present,
while client_id and client_secret, both set to null, are always omitted. -/
theorem tokenRequestBody_fields (u p : String) :
    bodySerializer (tokenRequestBody u p)
      = [("grant_type", "password"), ("username", u), ("password", p),
         ("scope", "")] := rfl

end LoginPage
